import Mathlib

/-!
Verification of the resilience core of the pg-bouncer repository.

The definitions below are a shallow embedding of the TypeScript source:

* `FPState`, `mkFailoverPoolManager`, `shouldRetryEndpoint`, `getConnGo`,
  `getConnection`, `performHealthChecks` embed
  `apps/server/src/db/failover-pool.ts` (`FailoverPoolManager`).
* `CBState`, `cbOnFailure`, `cbOnSuccess` embed the cockatiel
  `ConsecutiveBreaker` state machine as configured there.
* `opossumShouldOpen` embeds the open condition of the opossum breaker
  configured in `apps/server/src/db/client.ts`.
* `retryExec` embeds cockatiel `retry(handleAll, ...)` as configured in
  `apps/server/src/db/resilient-driver.ts`, and `driverPolicyExec` the full
  `wrap(retryPolicy, circuitBreakerPolicy, timeoutPolicy)` composition
  built there.
* `timeoutExecuteQuery`/`timeoutStreamQuery` embed
  `apps/server/src/db/timeout-connection.ts`, and the release-accounting
  models embed `apps/server/src/db/resilient-connection.ts`.

JS `Map`s are modelled as association lists (`mapGet`/`mapSet`), JS numbers
holding `Date.now()` values as `Int`, and promise-returning operations as
pure functions fed by explicit oracles describing what each asynchronous
step would do.
-/

/-- Lookup in an association list, the model of JS `Map.prototype.get`:
`none` models `undefined`. -/
def mapGet {α : Type} : List (String × α) → String → Option α
  | [], _ => none
  | (k', v) :: rest, k => if k' = k then some v else mapGet rest k

/-- Update of an association list, the model of JS `Map.prototype.set`:
an existing key is overwritten in place, a new key is appended. -/
def mapSet {α : Type} : List (String × α) → String → α → List (String × α)
  | [], k, v => [(k, v)]
  | (k', v') :: rest, k, v =>
    if k' = k then (k, v) :: rest else (k', v') :: mapSet rest k v

theorem mapGet_mapSet_self {α : Type} (m : List (String × α)) (k : String) (v : α) :
    mapGet (mapSet m k v) k = some v := by
  induction m with
  | nil => simp [mapGet, mapSet]
  | cons p rest ih =>
    obtain ⟨a, b⟩ := p
    by_cases h : a = k
    · subst h
      simp [mapSet, mapGet]
    · simp only [mapSet, if_neg h, mapGet]
      exact ih

theorem mapGet_mapSet_ne {α : Type} (m : List (String × α)) (k k' : String) (v : α)
    (h : k' ≠ k) : mapGet (mapSet m k v) k' = mapGet m k' := by
  induction m with
  | nil =>
    simp only [mapSet, mapGet]
    rw [if_neg (fun hk : k = k' => h hk.symm)]
  | cons p rest ih =>
    obtain ⟨a, b⟩ := p
    by_cases hp : a = k
    · subst hp
      simp only [mapSet, if_pos rfl, mapGet]
      rw [if_neg (fun hk => h hk.symm), if_neg (fun hk => h hk.symm)]
    · simp only [mapSet, if_neg hp, mapGet]
      by_cases hpk : a = k'
      · rw [if_pos hpk, if_pos hpk]
      · rw [if_neg hpk, if_neg hpk]
        exact ih

instance {ε α : Type} [DecidableEq ε] [DecidableEq α] : DecidableEq (Except ε α) :=
  fun x y =>
    match x, y with
    | Except.ok a, Except.ok b =>
      if h : a = b then isTrue (by rw [h]) else isFalse (by simp [h])
    | Except.ok _, Except.error _ => isFalse (by simp)
    | Except.error _, Except.ok _ => isFalse (by simp)
    | Except.error e, Except.error f =>
      if h : e = f then isTrue (by rw [h]) else isFalse (by simp [h])

/-- Configuration constant `FAILOVER_POOL_CONFIG.healthCheck.retryAfterMs`
from `failover-pool.ts`. -/
def retryAfterMs : Int := 6000

/-- Configuration constant
`FAILOVER_POOL_CONFIG.circuitBreaker.consecutiveFailures` from
`failover-pool.ts`. -/
def consecutiveFailuresThreshold : Nat := 3

/-- The mutable state of a `FailoverPoolManager` instance
(`failover-pool.ts`): the configured endpoint list (each endpoint
represented by its connection-string key), the key set of the `pools` and
`circuitBreakers` maps (filled identically by the constructor, so one list
models both), the rotating cursor `currentIndex`, and the two health maps. -/
structure FPState where
  endpoints : List String
  poolKeys : List String
  currentIndex : Nat
  healthStatus : List (String × Bool)
  lastHealthCheck : List (String × Int)
  deriving Repr, DecidableEq

/-- The `FailoverPoolManager` constructor (`failover-pool.ts` lines 41-99):
for every endpoint it creates a pool and a breaker, marks the endpoint
healthy and stamps `lastHealthCheck` with the current time.  There is no
validation of the endpoint list: the body is a plain `forEach`, so it is a
total function of the input list.  (`now` models `Date.now()`.) -/
def mkFailoverPoolManager (endpoints : List String) (now : Int) : FPState :=
  { endpoints := endpoints
    poolKeys := endpoints.foldl (fun l k => if k ∈ l then l else l ++ [k]) []
    currentIndex := 0
    healthStatus := endpoints.foldl (fun m k => mapSet m k true) []
    lastHealthCheck := endpoints.foldl (fun m k => mapSet m k now) [] }

/-- `FailoverPoolManager.shouldRetryEndpoint` (`failover-pool.ts` lines
115-122): returns `true` when the health flag is truthy; otherwise compares
the time since the last recorded check (defaulting to `0` via `|| 0`)
against `retryAfterMs` with a strict `>`. -/
def shouldRetryEndpoint (st : FPState) (now : Int) (key : String) : Bool :=
  match mapGet st.healthStatus key with
  | some true => true
  | _ =>
    let lastCheck := (mapGet st.lastHealthCheck key).getD 0
    decide (now - lastCheck > retryAfterMs)

/-- What one physical acquisition attempt (`breaker.execute(() =>
pool.connect())`) observably does: the breaker rejects with
`BrokenCircuitError`, or the connect resolves with a client, or the connect
rejects with some underlying error (carried as its message string). -/
inductive AttemptResult where
  | brokenCircuit
  | connected (clientId : Nat)
  | connFailed (err : String)
  deriving Repr, DecidableEq

/-- The value `{ client, key }` returned by a successful
`getConnection` call. -/
structure ConnOk where
  clientId : Nat
  key : String
  deriving Repr, DecidableEq

/-- A thrown JS `Error`, carrying only its message: `failover-pool.ts`
throws `new Error("All PgBouncer instances are unavailable")` with no
`cause` and no subclass. -/
inductive DbError where
  | message (s : String)
  deriving Repr, DecidableEq

/-- The exact error thrown when the loop in `getConnection` exhausts all
endpoints (`failover-pool.ts` line 166). -/
def allUnavailableErr : DbError :=
  DbError.message "All PgBouncer instances are unavailable"

/-- The observable outcome of one `getConnection` call: the resolved or
rejected value, the final manager state, and how many physical acquisition
attempts (`breaker.execute` calls) were made. -/
structure GetConnResult where
  result : Except DbError ConnOk
  state : FPState
  attempts : Nat
  deriving Repr, DecidableEq

/-- `this.currentIndex = (this.currentIndex + 1) % this.endpoints.length`. -/
def advance (st : FPState) : FPState :=
  { st with currentIndex := (st.currentIndex + 1) % st.endpoints.length }

/-- `failover-pool.ts` lines 143-146: just before an attempt, an eligible
endpoint whose health flag is not truthy is re-marked healthy
(`if (!this.healthStatus.get(key)) this.healthStatus.set(key, true)`). -/
def markHealthyBeforeAttempt (st : FPState) (key : String) : FPState :=
  if mapGet st.healthStatus key ≠ some true then
    { st with healthStatus := mapSet st.healthStatus key true }
  else st

/-- `failover-pool.ts` line 158: the catch branch for a non-circuit
failure sets the health flag to `false` (and touches nothing else). -/
def markUnhealthy (st : FPState) (key : String) : FPState :=
  { st with healthStatus := mapSet st.healthStatus key false }

/-- One iteration of the `for` loop of `FailoverPoolManager.getConnection`
(`failover-pool.ts` lines 124-167), continued recursively on the remaining
iteration budget `fuel` (initially `endpoints.length`).  `env i key` is the
oracle describing what the `i`-th physical attempt against endpoint `key`
would do; `i` counts loop iterations.  Mirrors the source exactly: missing
pool/breaker or an ineligible endpoint skips and advances the cursor; an
eligible endpoint whose health flag is not truthy is re-marked healthy
before the attempt; success returns at once (no cursor advance);
`BrokenCircuitError` mutates nothing; any other failure sets the health
flag to `false`; both failure kinds advance the cursor and continue.
(`endpoints[currentIndex]` being out of range would crash in JS; the model
returns a distinguished `TypeError` message for that unreachable case.) -/
def getConnGo (env : Nat → String → AttemptResult) (now : Int) :
    Nat → Nat → FPState → Nat → GetConnResult
  | _, 0, st, acc => ⟨Except.error allUnavailableErr, st, acc⟩
  | i, fuel + 1, st, acc =>
    match st.endpoints.get? st.currentIndex with
    | none => ⟨Except.error (DbError.message "TypeError"), st, acc⟩
    | some key =>
      if key ∈ st.poolKeys then
        if shouldRetryEndpoint st now key then
          match env i key with
          | AttemptResult.connected c =>
            ⟨Except.ok ⟨c, key⟩, markHealthyBeforeAttempt st key, acc + 1⟩
          | AttemptResult.brokenCircuit =>
            getConnGo env now (i + 1) fuel
              (advance (markHealthyBeforeAttempt st key)) (acc + 1)
          | AttemptResult.connFailed _ =>
            getConnGo env now (i + 1) fuel
              (advance (markUnhealthy (markHealthyBeforeAttempt st key) key))
              (acc + 1)
        else getConnGo env now (i + 1) fuel (advance st) acc
      else getConnGo env now (i + 1) fuel (advance st) acc

/-- `FailoverPoolManager.getConnection`: runs the loop for
`attempts = this.endpoints.length` iterations starting at the persisted
cursor. -/
def getConnection (env : Nat → String → AttemptResult) (now : Int)
    (st : FPState) : GetConnResult :=
  getConnGo env now 0 st.endpoints.length st 0

/-- `FailoverPoolManager.performHealthChecks` (`failover-pool.ts` lines
101-113): for every pool key, run `SELECT 1` (outcome given by the oracle
`probe`), set the health flag to the outcome, and stamp `lastHealthCheck`
with the current time in both branches. -/
def performHealthChecks (probe : String → Bool) (now : Int) (st : FPState) :
    FPState :=
  { st with
    healthStatus := st.poolKeys.foldl (fun m k => mapSet m k (probe k)) st.healthStatus
    lastHealthCheck := st.poolKeys.foldl (fun m k => mapSet m k now) st.lastHealthCheck }

/-- Circuit-breaker state as maintained by the cockatiel `circuitBreaker`
policy that `failover-pool.ts` (threshold 3) and `resilient-driver.ts`
(threshold 2) construct around a `ConsecutiveBreaker`.  The breaker logic
itself lives in the cockatiel dependency, not under the repository source;
it is modelled here from spec §3 (whose transition table matches cockatiel's
`ConsecutiveBreaker` semantics): `closed` carries the consecutive-failure
count, `opened` carries `openedAt`. -/
inductive CBState where
  | closed (consecutiveFailures : Nat)
  | opened (openedAt : Int)
  | halfOpen
  deriving Repr, DecidableEq

/-- Result reporting on failure: while closed, the consecutive-failure
count is incremented and the breaker opens exactly when it reaches the
configured threshold; a half-open trial failure re-opens (resetting
`openedAt`); failures while already open leave the state alone. -/
def cbOnFailure (threshold : Nat) : CBState → Int → CBState
  | CBState.closed n, now =>
    if threshold ≤ n + 1 then CBState.opened now else CBState.closed (n + 1)
  | CBState.halfOpen, now => CBState.opened now
  | CBState.opened t, _ => CBState.opened t

/-- Result reporting on success: any success while closed (and the
half-open trial success) resets the consecutive-failure count to 0. -/
def cbOnSuccess : CBState → CBState
  | CBState.closed _ => CBState.closed 0
  | CBState.halfOpen => CBState.closed 0
  | CBState.opened t => CBState.opened t

/-- Open condition of the single opossum `CircuitBreaker` constructed in
`client.ts` (lines 34-48) with `errorThresholdPercentage: 50`,
`volumeThreshold: 10` and `allowWarmUp: true`.  The breaker logic lives in
the opossum dependency; modelled from those configured options and
opossum's semantics: it never opens during the warm-up window
(`warmedUp = false` models `allowWarmUp` suppressing opens until the first
rolling window has elapsed), and afterwards opens only once the
rolling-window volume reaches the volume threshold and the error rate is
strictly greater than the error threshold (opossum special-cases
`errorThresholdPercentage === 0` precisely because the comparison is
strict; here the threshold is 50).  `failures`/`successes` are the
rolling-window counts; `errorRate > 50` is `100 * failures > 50 * volume`. -/
def opossumShouldOpen (warmedUp : Bool) (failures successes : Nat) : Bool :=
  let volume := failures + successes
  warmedUp && decide (10 ≤ volume) && decide (100 * failures > 50 * volume)

/-- Errors raised while executing a statement, tagged with the
classification the spec's error taxonomy (§7) talks about; the tag carries
the driver error code.  The code under test never inspects these tags:
that is the point of several claims.  `brokenCircuit` is cockatiel's
`BrokenCircuitError`, thrown by an open policy-level breaker instead of
running the operation. -/
inductive QError where
  | statement (code : String)
  | connection (code : String)
  | timedOut
  | brokenCircuit
  deriving Repr, DecidableEq

/-- The cockatiel `handleAll` filter used by every policy in
`resilient-driver.ts`: every error is handled (retried / counted). -/
def handleAllFilter (_ : QError) : Bool := true

/-- cockatiel `RetryPolicy.execute` as configured in `resilient-driver.ts`
(`retry(handleAll, { maxAttempts: 3, backoff: ExponentialBackoff })`),
modelled from the cockatiel dependency's semantics: call the operation; on
a handled error, while retry budget remains, wait one backoff delay and
call again with the next attempt number; otherwise rethrow the last error
unchanged.  `op n` is the outcome of the `n`-th call.  Returns the final
outcome, the number of calls made, and the number of backoff waits. -/
def retryExecGo {α : Type} (shouldHandle : QError → Bool)
    (op : Nat → Except QError α) : Nat → Nat → Except QError α × Nat × Nat
  | attempt, 0 => (op attempt, 1, 0)
  | attempt, budget + 1 =>
    match op attempt with
    | Except.ok a => (Except.ok a, 1, 0)
    | Except.error e =>
      if shouldHandle e then
        let r := retryExecGo shouldHandle op (attempt + 1) budget
        (r.1, r.2.1 + 1, r.2.2 + 1)
      else (Except.error e, 1, 0)

/-- Entry point of the retry policy: attempt 0 with the configured
`maxAttempts` retry budget. -/
def retryExec {α : Type} (shouldHandle : QError → Bool) (maxAttempts : Nat)
    (op : Nat → Except QError α) : Except QError α × Nat × Nat :=
  retryExecGo shouldHandle op 0 maxAttempts

/-- What the statement underlying one `executeQuery`/`streamQuery` call
would do if run to completion: how long it takes and what it returns. -/
structure QueryOp (α : Type) where
  duration : Nat
  result : Except QError α
  deriving Repr, DecidableEq

/-- `TimeoutConnection.executeQuery` (`timeout-connection.ts` lines 14-25):
the inner call runs under `timeout(timeoutMs, TimeoutStrategy.Aggressive)`,
so an operation that outlasts `timeoutMs` rejects with a timeout error
(the catch clause re-labels its message); otherwise the inner outcome is
returned as is. -/
def timeoutExecuteQuery {α : Type} (timeoutMs : Nat) (op : QueryOp α) :
    Except QError α :=
  if timeoutMs < op.duration then Except.error QError.timedOut else op.result

/-- `TimeoutConnection.streamQuery` (`timeout-connection.ts` lines 27-29):
`yield* this.connection.streamQuery(...)` — the inner stream is delegated
to directly, with no timeout policy around it, so the outcome is the inner
outcome regardless of duration. -/
def timeoutStreamQuery {α : Type} (op : QueryOp α) : Except QError α :=
  op.result

/-- The retry layer of `ResilientConnection.executeQuery`
(`resilient-connection.ts` lines 12-28): the attempt runs inside
`policy.execute`, whose outermost layer is the `retry(handleAll,
maxAttempts 3)` policy built in `resilient-driver.ts`.  `op n` is the
outcome the `n`-th attempt produces through the inner
breaker/timeout layers; this view is exact whenever those inner layers are
pass-through — the inner `ConsecutiveBreaker(2)` stays closed (fewer than
2 consecutive failures) and the attempt finishes within the 30s timeout.
`driverPolicyExec` below models the full `wrap(retry, circuitBreaker,
timeout)` composition for sequences that do open the inner breaker. -/
def resilientExecuteQuery {α : Type} (op : Nat → Except QError α) :
    Except QError α × Nat × Nat :=
  retryExec handleAllFilter 3 op

/-- `ResilientConnection.streamQuery` (`resilient-connection.ts` lines
30-44): a single acquire-query-release attempt with no surrounding policy.
Returns the same (outcome, calls, waits) shape as `resilientExecuteQuery`. -/
def resilientStreamQuery {α : Type} (op : Nat → Except QError α) :
    Except QError α × Nat × Nat :=
  (op 0, 1, 0)

/-- What one acquire-then-query attempt inside `executeQuery`/`streamQuery`
would observe: either `getConnection` rejects (no client handed out), or a
client is acquired and the statement yields the given outcome. -/
inductive ExecStep (α : Type) where
  | acqFailed (e : QError)
  | acquired (q : Except QError (List α))
  deriving Repr, DecidableEq

/-- One `executeQuery` attempt body (`resilient-connection.ts` lines
13-27): `getConnection`, then `try { query } finally { client.release() }`.
Returns the outcome together with (clients acquired, clients released):
if acquisition fails no client exists; once a client is acquired the
`finally` releases it on the success path and on the error path alike. -/
def runExecuteQueryAttempt {α : Type} : ExecStep α →
    Except QError (List α) × Nat × Nat
  | ExecStep.acqFailed e => (Except.error e, 0, 0)
  | ExecStep.acquired (Except.ok rows) => (Except.ok rows, 1, 1)
  | ExecStep.acquired (Except.error e) => (Except.error e, 1, 1)

/-- The retry loop of `policy.execute` around `executeQuery` attempts
(`handleAll`: every error is retried while budget remains), accumulating
acquire/release counts across attempts. -/
def execRetryGo {α : Type} (steps : Nat → ExecStep α) :
    Nat → Nat → Except QError (List α) × Nat × Nat
  | attempt, 0 => runExecuteQueryAttempt (steps attempt)
  | attempt, budget + 1 =>
    let r := runExecuteQueryAttempt (steps attempt)
    match r.1 with
    | Except.ok v => (Except.ok v, r.2.1, r.2.2)
    | Except.error _ =>
      let r' := execRetryGo steps (attempt + 1) budget
      (r'.1, r.2.1 + r'.2.1, r.2.2 + r'.2.2)

/-- `ResilientConnection.executeQuery` with release accounting: the retry
policy (maxAttempts 3) around per-attempt acquire-query-release. -/
def resilientExecuteQueryRun {α : Type} (steps : Nat → ExecStep α) :
    Except QError (List α) × Nat × Nat :=
  execRetryGo steps 0 3

/-- One `streamQuery` consumption (`resilient-connection.ts` lines 30-44):
the generator acquires, then inside `try ... finally` runs the statement
and yields the rows one by one; `stopAfter = some j` models a consumer that
abandons the stream (early `break`) after taking `j` rows, `none` a
consumer that exhausts it.  In JS an early `break` in `for await` calls the
generator's `return()`, which runs the `finally`, so every path on which a
client was acquired releases it.  Returns (rows delivered, acquired,
released). -/
def runStreamQuery {α : Type} : ExecStep α → Option Nat →
    List α × Nat × Nat
  | ExecStep.acqFailed _, _ => ([], 0, 0)
  | ExecStep.acquired (Except.error _), _ => ([], 1, 1)
  | ExecStep.acquired (Except.ok rows), none => (rows, 1, 1)
  | ExecStep.acquired (Except.ok rows), some j => (rows.take j, 1, 1)

/-- Configuration of the driver-level policy in `resilient-driver.ts`
(lines 20-36): `retry(handleAll, maxAttempts 3, ExponentialBackoff)` wrapped
around `circuitBreaker(handleAll, ConsecutiveBreaker(2), halfOpenAfter
30000)` wrapped around `timeout(30000, Cooperative)`. -/
def driverBreakerThreshold : Nat := 2

/-- `halfOpenAfter: 30000` of the driver-level breaker in
`resilient-driver.ts`. -/
def driverHalfOpenAfter : Int := 30000

/-- `timeout(30000, ...)` of the driver-level policy in
`resilient-driver.ts`. -/
def driverTimeoutMs : Nat := 30000

/-- The innermost `timeout` policy layer of the wrapped driver policy: an
operation that outlasts the timeout rejects with a timeout error
(Cooperative strategy, assuming the operation observes the cancellation
signal), otherwise its own outcome passes through. -/
def timeoutLayer {α : Type} (timeoutMs : Nat) (q : QueryOp α) : Except QError α :=
  if timeoutMs < q.duration then Except.error QError.timedOut else q.result

/-- One `circuitBreaker(handleAll, ...).execute` call of the driver-level
policy, modelled from cockatiel's semantics: while the breaker is open and
`halfOpenAfter` has not elapsed since `openedAt` it rejects with
`BrokenCircuitError` without running the inner operation; an open breaker
past `halfOpenAfter` admits one half-open trial (success closes, failure
re-opens); otherwise the inner outcome is reported to the
`ConsecutiveBreaker` via `cbOnSuccess`/`cbOnFailure`.  Returns the
outcome, the new breaker state, and whether the inner operation ran. -/
def breakerStep {α : Type} (threshold : Nat) (halfOpenAfter : Int)
    (cb : CBState) (now : Int) (inner : Except QError α) :
    Except QError α × CBState × Bool :=
  match cb with
  | CBState.opened t =>
    if halfOpenAfter ≤ now - t then
      match inner with
      | Except.ok a => (Except.ok a, CBState.closed 0, true)
      | Except.error e => (Except.error e, CBState.opened now, true)
    else (Except.error QError.brokenCircuit, CBState.opened t, false)
  | cbState =>
    match inner with
    | Except.ok a => (Except.ok a, cbOnSuccess cbState, true)
    | Except.error e => (Except.error e, cbOnFailure threshold cbState now, true)

/-- Observable outcome of one `policy.execute` call through the full
wrapped driver policy: the final resolved/rejected value, how many times
the underlying statement actually ran, how many backoff waits occurred,
and the final driver-breaker state. -/
structure WrapResult (α : Type) where
  result : Except QError α
  executions : Nat
  waits : Nat
  breaker : CBState
  deriving Repr, DecidableEq

/-- The retry loop of the wrapped driver policy
(`wrap(retryPolicy, circuitBreakerPolicy, timeoutPolicy)` in
`resilient-driver.ts`, so `retry` around `breaker` around `timeout`):
each call goes through `breakerStep` on the timeout-bounded statement
outcome `op attempt`; `handleAll` retries any error while retry budget
remains, waiting `delay attempt` (the `ExponentialBackoff` delay with
jitter, capped at 5000ms) before the next call; an exhausted budget
rethrows the last error unchanged. -/
def wrapExecGo {α : Type} (op : Nat → QueryOp α) (delay : Nat → Int) :
    Nat → Nat → CBState → Int → Nat → Nat → WrapResult α
  | 0, attempt, cb, now, execs, waits =>
    match breakerStep driverBreakerThreshold driverHalfOpenAfter cb now
        (timeoutLayer driverTimeoutMs (op attempt)) with
    | (r, cb2, ran) => ⟨r, execs + (if ran then 1 else 0), waits, cb2⟩
  | budget + 1, attempt, cb, now, execs, waits =>
    match breakerStep driverBreakerThreshold driverHalfOpenAfter cb now
        (timeoutLayer driverTimeoutMs (op attempt)) with
    | (Except.ok a, cb2, ran) => ⟨Except.ok a, execs + (if ran then 1 else 0), waits, cb2⟩
    | (Except.error _, cb2, ran) =>
      wrapExecGo op delay budget (attempt + 1) cb2 (now + delay attempt)
        (execs + (if ran then 1 else 0)) (waits + 1)

/-- One `policy.execute` call of the driver policy from a fresh breaker
(`ResilientPostgresDriver` constructs the policy once per driver; `start`
is the wall-clock time of the first attempt): retry budget `maxAttempts =
3`, breaker closed with count 0. -/
def driverPolicyExec {α : Type} (op : Nat → QueryOp α) (delay : Nat → Int)
    (start : Int) : WrapResult α :=
  wrapExecGo op delay 3 0 (CBState.closed 0) start 0 0

theorem markHealthyBeforeAttempt_endpoints (st : FPState) (key : String) :
    (markHealthyBeforeAttempt st key).endpoints = st.endpoints := by
  unfold markHealthyBeforeAttempt
  split <;> rfl

theorem markHealthyBeforeAttempt_poolKeys (st : FPState) (key : String) :
    (markHealthyBeforeAttempt st key).poolKeys = st.poolKeys := by
  unfold markHealthyBeforeAttempt
  split <;> rfl

theorem markHealthyBeforeAttempt_currentIndex (st : FPState) (key : String) :
    (markHealthyBeforeAttempt st key).currentIndex = st.currentIndex := by
  unfold markHealthyBeforeAttempt
  split <;> rfl

theorem markHealthyBeforeAttempt_lastHealthCheck (st : FPState) (key : String) :
    (markHealthyBeforeAttempt st key).lastHealthCheck = st.lastHealthCheck := by
  unfold markHealthyBeforeAttempt
  split <;> rfl

theorem markHealthyBeforeAttempt_mapGet (st : FPState) (key k : String) :
    mapGet (markHealthyBeforeAttempt st key).healthStatus k = mapGet st.healthStatus k ∨
      mapGet (markHealthyBeforeAttempt st key).healthStatus k = some true := by
  unfold markHealthyBeforeAttempt
  split
  · by_cases hk : k = key
    · subst hk
      exact Or.inr (mapGet_mapSet_self _ _ _)
    · exact Or.inl (mapGet_mapSet_ne _ _ _ _ hk)
  · exact Or.inl rfl

theorem advance_endpoints (st : FPState) : (advance st).endpoints = st.endpoints := rfl

theorem advance_poolKeys (st : FPState) : (advance st).poolKeys = st.poolKeys := rfl

theorem advance_healthStatus (st : FPState) :
    (advance st).healthStatus = st.healthStatus := rfl

theorem advance_lastHealthCheck (st : FPState) :
    (advance st).lastHealthCheck = st.lastHealthCheck := rfl

theorem advance_invariant (st : FPState)
    (h : st.currentIndex < st.endpoints.length) :
    (advance st).currentIndex < (advance st).endpoints.length := by
  have hpos : 0 < st.endpoints.length := Nat.lt_of_le_of_lt (Nat.zero_le _) h
  simpa [advance] using Nat.mod_lt _ hpos

/-- The `getConnection` loop never touches `lastHealthCheck`, the endpoint
list, or the pool/breaker key set. -/
theorem getConnGo_frame (env : Nat → String → AttemptResult) (now : Int) :
    ∀ (fuel i acc : Nat) (st : FPState),
      (getConnGo env now i fuel st acc).state.lastHealthCheck = st.lastHealthCheck ∧
      (getConnGo env now i fuel st acc).state.endpoints = st.endpoints ∧
      (getConnGo env now i fuel st acc).state.poolKeys = st.poolKeys := by
  intro fuel
  induction fuel with
  | zero => intro i acc st; exact ⟨rfl, rfl, rfl⟩
  | succ fuel ih =>
    intro i acc st
    simp only [getConnGo]
    cases hget : st.endpoints.get? st.currentIndex with
    | none => exact ⟨rfl, rfl, rfl⟩
    | some key =>
      dsimp only
      by_cases hpool : key ∈ st.poolKeys
      · rw [if_pos hpool]
        by_cases hretry : shouldRetryEndpoint st now key = true
        · rw [if_pos hretry]
          cases henv : env i key with
          | connected c =>
            exact ⟨markHealthyBeforeAttempt_lastHealthCheck st key,
              markHealthyBeforeAttempt_endpoints st key,
              markHealthyBeforeAttempt_poolKeys st key⟩
          | brokenCircuit =>
            have := ih (i + 1) (acc + 1) (advance (markHealthyBeforeAttempt st key))
            simpa [advance_lastHealthCheck, advance_endpoints, advance_poolKeys,
              markHealthyBeforeAttempt_lastHealthCheck, markHealthyBeforeAttempt_endpoints,
              markHealthyBeforeAttempt_poolKeys] using this
          | connFailed e =>
            have := ih (i + 1) (acc + 1)
              (advance (markUnhealthy (markHealthyBeforeAttempt st key) key))
            simpa [advance_lastHealthCheck, advance_endpoints, advance_poolKeys,
              markUnhealthy, markHealthyBeforeAttempt_lastHealthCheck,
              markHealthyBeforeAttempt_endpoints, markHealthyBeforeAttempt_poolKeys] using this
        · rw [if_neg hretry]
          exact ih (i + 1) acc (advance st)
      · rw [if_neg hpool]
        exact ih (i + 1) acc (advance st)

/-- The loop makes at most `fuel` physical acquisition attempts beyond the
`acc` already accumulated. -/
theorem getConnGo_attempts_le (env : Nat → String → AttemptResult) (now : Int) :
    ∀ (fuel i acc : Nat) (st : FPState),
      (getConnGo env now i fuel st acc).attempts ≤ acc + fuel := by
  intro fuel
  induction fuel with
  | zero => intro i acc st; exact Nat.le_refl acc
  | succ fuel ih =>
    intro i acc st
    simp only [getConnGo]
    cases hget : st.endpoints.get? st.currentIndex with
    | none => exact Nat.le_add_right acc (fuel + 1)
    | some key =>
      dsimp only
      by_cases hpool : key ∈ st.poolKeys
      · rw [if_pos hpool]
        by_cases hretry : shouldRetryEndpoint st now key = true
        · rw [if_pos hretry]
          cases henv : env i key with
          | connected c =>
            show acc + 1 ≤ acc + (fuel + 1)
            omega
          | brokenCircuit =>
            dsimp only
            have := ih (i + 1) (acc + 1) (advance (markHealthyBeforeAttempt st key))
            omega
          | connFailed e =>
            dsimp only
            have := ih (i + 1) (acc + 1)
              (advance (markUnhealthy (markHealthyBeforeAttempt st key) key))
            omega
        · rw [if_neg hretry]
          have := ih (i + 1) acc (advance st)
          omega
      · rw [if_neg hpool]
        have := ih (i + 1) acc (advance st)
        omega

/-- While the cursor stays in range, the loop either resolves with a
connection or rejects with exactly the fixed all-unavailable error. -/
theorem getConnGo_result_shape (env : Nat → String → AttemptResult) (now : Int) :
    ∀ (fuel i acc : Nat) (st : FPState),
      st.currentIndex < st.endpoints.length →
      (∃ r, (getConnGo env now i fuel st acc).result = Except.ok r) ∨
        (getConnGo env now i fuel st acc).result = Except.error allUnavailableErr := by
  intro fuel
  induction fuel with
  | zero => intro i acc st _; exact Or.inr rfl
  | succ fuel ih =>
    intro i acc st hlt
    have hinv : (advance st).currentIndex < (advance st).endpoints.length :=
      advance_invariant st hlt
    simp only [getConnGo]
    cases hget : st.endpoints.get? st.currentIndex with
    | none =>
      rw [List.get?_eq_get hlt] at hget
      exact absurd hget (by simp)
    | some key =>
      dsimp only
      by_cases hpool : key ∈ st.poolKeys
      · rw [if_pos hpool]
        by_cases hretry : shouldRetryEndpoint st now key = true
        · rw [if_pos hretry]
          cases henv : env i key with
          | connected c => exact Or.inl ⟨⟨c, key⟩, rfl⟩
          | brokenCircuit =>
            refine ih (i + 1) (acc + 1) (advance (markHealthyBeforeAttempt st key)) ?_
            have h1 : (markHealthyBeforeAttempt st key).currentIndex <
                (markHealthyBeforeAttempt st key).endpoints.length := by
              rw [markHealthyBeforeAttempt_currentIndex,
                markHealthyBeforeAttempt_endpoints]
              exact hlt
            exact advance_invariant _ h1
          | connFailed e =>
            refine ih (i + 1) (acc + 1)
              (advance (markUnhealthy (markHealthyBeforeAttempt st key) key)) ?_
            have h1 : (markUnhealthy (markHealthyBeforeAttempt st key) key).currentIndex <
                (markUnhealthy (markHealthyBeforeAttempt st key) key).endpoints.length := by
              show (markHealthyBeforeAttempt st key).currentIndex <
                (markHealthyBeforeAttempt st key).endpoints.length
              rw [markHealthyBeforeAttempt_currentIndex,
                markHealthyBeforeAttempt_endpoints]
              exact hlt
            exact advance_invariant _ h1
        · rw [if_neg hretry]
          exact ih (i + 1) acc (advance st) hinv
      · rw [if_neg hpool]
        exact ih (i + 1) acc (advance st) hinv

/-- Unfolding equation: loop iteration with an out-of-range cursor. -/
theorem getConnGo_none (env : Nat → String → AttemptResult) (now : Int)
    (i fuel acc : Nat) (st : FPState)
    (hget : st.endpoints.get? st.currentIndex = none) :
    getConnGo env now i (fuel + 1) st acc =
      ⟨Except.error (DbError.message "TypeError"), st, acc⟩ := by
  simp only [getConnGo]
  rw [hget]

/-- Unfolding equation: loop iteration skipping a key with no pool/breaker. -/
theorem getConnGo_skip_pool (env : Nat → String → AttemptResult) (now : Int)
    (i fuel acc : Nat) (st : FPState) (key : String)
    (hget : st.endpoints.get? st.currentIndex = some key)
    (hpool : key ∉ st.poolKeys) :
    getConnGo env now i (fuel + 1) st acc =
      getConnGo env now (i + 1) fuel (advance st) acc := by
  simp only [getConnGo]
  rw [hget]
  dsimp only
  rw [if_neg hpool]

/-- Unfolding equation: loop iteration skipping an ineligible endpoint. -/
theorem getConnGo_skip_retry (env : Nat → String → AttemptResult) (now : Int)
    (i fuel acc : Nat) (st : FPState) (key : String)
    (hget : st.endpoints.get? st.currentIndex = some key)
    (hpool : key ∈ st.poolKeys)
    (hretry : shouldRetryEndpoint st now key = false) :
    getConnGo env now i (fuel + 1) st acc =
      getConnGo env now (i + 1) fuel (advance st) acc := by
  simp only [getConnGo]
  rw [hget]
  dsimp only
  rw [if_pos hpool, if_neg (by simp [hretry])]

/-- Unfolding equation: loop iteration whose attempt resolves a client. -/
theorem getConnGo_hit_connected (env : Nat → String → AttemptResult) (now : Int)
    (i fuel acc : Nat) (st : FPState) (key : String) (c : Nat)
    (hget : st.endpoints.get? st.currentIndex = some key)
    (hpool : key ∈ st.poolKeys)
    (hretry : shouldRetryEndpoint st now key = true)
    (henv : env i key = AttemptResult.connected c) :
    getConnGo env now i (fuel + 1) st acc =
      ⟨Except.ok ⟨c, key⟩, markHealthyBeforeAttempt st key, acc + 1⟩ := by
  simp only [getConnGo]
  rw [hget]
  dsimp only
  rw [if_pos hpool, if_pos hretry, henv]

/-- Unfolding equation: loop iteration whose attempt is rejected by an open
breaker. -/
theorem getConnGo_hit_broken (env : Nat → String → AttemptResult) (now : Int)
    (i fuel acc : Nat) (st : FPState) (key : String)
    (hget : st.endpoints.get? st.currentIndex = some key)
    (hpool : key ∈ st.poolKeys)
    (hretry : shouldRetryEndpoint st now key = true)
    (henv : env i key = AttemptResult.brokenCircuit) :
    getConnGo env now i (fuel + 1) st acc =
      getConnGo env now (i + 1) fuel
        (advance (markHealthyBeforeAttempt st key)) (acc + 1) := by
  simp only [getConnGo]
  rw [hget]
  dsimp only
  rw [if_pos hpool, if_pos hretry, henv]

/-- Unfolding equation: loop iteration whose attempt fails with a
non-circuit error. -/
theorem getConnGo_hit_failed (env : Nat → String → AttemptResult) (now : Int)
    (i fuel acc : Nat) (st : FPState) (key : String) (e : String)
    (hget : st.endpoints.get? st.currentIndex = some key)
    (hpool : key ∈ st.poolKeys)
    (hretry : shouldRetryEndpoint st now key = true)
    (henv : env i key = AttemptResult.connFailed e) :
    getConnGo env now i (fuel + 1) st acc =
      getConnGo env now (i + 1) fuel
        (advance (markUnhealthy (markHealthyBeforeAttempt st key) key)) (acc + 1) := by
  simp only [getConnGo]
  rw [hget]
  dsimp only
  rw [if_pos hpool, if_pos hretry, henv]

theorem markUnhealthy_endpoints (st : FPState) (key : String) :
    (markUnhealthy st key).endpoints = st.endpoints := rfl

theorem markUnhealthy_currentIndex (st : FPState) (key : String) :
    (markUnhealthy st key).currentIndex = st.currentIndex := rfl

/-- On success, the final cursor still points at the key that was returned:
the success branch returns without advancing the cursor. -/
theorem getConnGo_ok_cursor (env : Nat → String → AttemptResult) (now : Int) :
    ∀ (fuel i acc : Nat) (st : FPState) (r : ConnOk),
      (getConnGo env now i fuel st acc).result = Except.ok r →
      (getConnGo env now i fuel st acc).state.endpoints.get?
        (getConnGo env now i fuel st acc).state.currentIndex = some r.key := by
  intro fuel
  induction fuel with
  | zero =>
    intro i acc st r hr
    simp [getConnGo] at hr
  | succ fuel ih =>
    intro i acc st r hr
    cases hget : st.endpoints.get? st.currentIndex with
    | none =>
      rw [getConnGo_none env now i fuel acc st hget] at hr
      simp at hr
    | some key =>
      by_cases hpool : key ∈ st.poolKeys
      · by_cases hretry : shouldRetryEndpoint st now key = true
        · cases henv : env i key with
          | connected c =>
            rw [getConnGo_hit_connected env now i fuel acc st key c hget hpool hretry henv] at hr ⊢
            dsimp only at hr ⊢
            have hkey : r = ⟨c, key⟩ := by
              injection hr with h
              rw [← h]
            subst hkey
            rw [markHealthyBeforeAttempt_endpoints,
              markHealthyBeforeAttempt_currentIndex]
            exact hget
          | brokenCircuit =>
            rw [getConnGo_hit_broken env now i fuel acc st key hget hpool hretry henv] at hr ⊢
            exact ih (i + 1) (acc + 1) (advance (markHealthyBeforeAttempt st key)) r hr
          | connFailed e =>
            rw [getConnGo_hit_failed env now i fuel acc st key e hget hpool hretry henv] at hr ⊢
            exact ih (i + 1) (acc + 1)
              (advance (markUnhealthy (markHealthyBeforeAttempt st key) key)) r hr
        · have hretry' : shouldRetryEndpoint st now key = false :=
            Bool.eq_false_iff.mpr hretry
          rw [getConnGo_skip_retry env now i fuel acc st key hget hpool hretry'] at hr ⊢
          exact ih (i + 1) acc (advance st) r hr
      · rw [getConnGo_skip_pool env now i fuel acc st key hget hpool] at hr ⊢
        exact ih (i + 1) acc (advance st) r hr

/-- Under an environment where every attempt is rejected by an open
breaker, the whole call rejects with the fixed all-unavailable error. -/
theorem getConnGo_broken_result (env : Nat → String → AttemptResult) (now : Int)
    (hbroken : ∀ j k', env j k' = AttemptResult.brokenCircuit) :
    ∀ (fuel i acc : Nat) (st : FPState),
      st.currentIndex < st.endpoints.length →
      (getConnGo env now i fuel st acc).result = Except.error allUnavailableErr := by
  intro fuel
  induction fuel with
  | zero => intro i acc st _; rfl
  | succ fuel ih =>
    intro i acc st hlt
    have hinv : (advance st).currentIndex < (advance st).endpoints.length :=
      advance_invariant st hlt
    cases hget : st.endpoints.get? st.currentIndex with
    | none =>
      rw [List.get?_eq_get hlt] at hget
      exact absurd hget (by simp)
    | some key =>
      by_cases hpool : key ∈ st.poolKeys
      · by_cases hretry : shouldRetryEndpoint st now key = true
        · rw [getConnGo_hit_broken env now i fuel acc st key hget hpool hretry
            (hbroken i key)]
          refine ih (i + 1) (acc + 1) (advance (markHealthyBeforeAttempt st key)) ?_
          refine advance_invariant _ ?_
          rw [markHealthyBeforeAttempt_currentIndex, markHealthyBeforeAttempt_endpoints]
          exact hlt
        · have hretry' : shouldRetryEndpoint st now key = false :=
            Bool.eq_false_iff.mpr hretry
          rw [getConnGo_skip_retry env now i fuel acc st key hget hpool hretry']
          exact ih (i + 1) acc (advance st) hinv
      · rw [getConnGo_skip_pool env now i fuel acc st key hget hpool]
        exact ih (i + 1) acc (advance st) hinv

/-- Under an environment where every attempt is rejected by an open
breaker, each endpoint's health flag is either left unchanged or flipped to
`true` (by the pre-attempt re-marking of a stale unhealthy endpoint); it is
never set to `false`. -/
theorem getConnGo_broken_health (env : Nat → String → AttemptResult) (now : Int)
    (hbroken : ∀ j k', env j k' = AttemptResult.brokenCircuit) :
    ∀ (fuel i acc : Nat) (st : FPState) (k : String),
      mapGet (getConnGo env now i fuel st acc).state.healthStatus k =
          mapGet st.healthStatus k ∨
        mapGet (getConnGo env now i fuel st acc).state.healthStatus k = some true := by
  intro fuel
  induction fuel with
  | zero => intro i acc st k; exact Or.inl rfl
  | succ fuel ih =>
    intro i acc st k
    cases hget : st.endpoints.get? st.currentIndex with
    | none =>
      rw [getConnGo_none env now i fuel acc st hget]
      exact Or.inl rfl
    | some key =>
      by_cases hpool : key ∈ st.poolKeys
      · by_cases hretry : shouldRetryEndpoint st now key = true
        · rw [getConnGo_hit_broken env now i fuel acc st key hget hpool hretry
            (hbroken i key)]
          have hmark := markHealthyBeforeAttempt_mapGet st key k
          have hrec := ih (i + 1) (acc + 1) (advance (markHealthyBeforeAttempt st key)) k
          have hadv : (advance (markHealthyBeforeAttempt st key)).healthStatus =
              (markHealthyBeforeAttempt st key).healthStatus := rfl
          rw [hadv] at hrec
          rcases hrec with hrec | hrec
          · rw [hrec]
            exact hmark
          · exact Or.inr hrec
        · have hretry' : shouldRetryEndpoint st now key = false :=
            Bool.eq_false_iff.mpr hretry
          rw [getConnGo_skip_retry env now i fuel acc st key hget hpool hretry']
          exact ih (i + 1) acc (advance st) k
      · rw [getConnGo_skip_pool env now i fuel acc st key hget hpool]
        exact ih (i + 1) acc (advance st) k

theorem mapGet_foldl_not_mem {α : Type} (f : String → α) :
    ∀ (l : List String) (m0 : List (String × α)) (k : String), k ∉ l →
      mapGet (l.foldl (fun m x => mapSet m x (f x)) m0) k = mapGet m0 k := by
  intro l
  induction l with
  | nil => intro m0 k _; rfl
  | cons x rest ih =>
    intro m0 k hk
    have hx : k ≠ x := fun h => hk (h ▸ List.mem_cons_self x rest)
    have hrest : k ∉ rest := fun h => hk (List.mem_cons_of_mem x h)
    simp only [List.foldl_cons]
    rw [ih (mapSet m0 x (f x)) k hrest]
    exact mapGet_mapSet_ne m0 x k (f x) hx

theorem mapGet_foldl_mem {α : Type} (f : String → α) :
    ∀ (l : List String) (m0 : List (String × α)) (k : String), k ∈ l →
      mapGet (l.foldl (fun m x => mapSet m x (f x)) m0) k = some (f k) := by
  intro l
  induction l with
  | nil => intro m0 k hk; exact absurd hk (List.not_mem_nil k)
  | cons x rest ih =>
    intro m0 k hk
    simp only [List.foldl_cons]
    by_cases hrest : k ∈ rest
    · exact ih (mapSet m0 x (f x)) k hrest
    · have hx : k = x := by
        rcases List.mem_cons.mp hk with h | h
        · exact h
        · exact absurd h hrest
      subst hx
      rw [mapGet_foldl_not_mem f rest (mapSet m0 k (f k)) k hrest]
      exact mapGet_mapSet_self m0 k (f k)

theorem runExecuteQueryAttempt_balanced {α : Type} (s : ExecStep α) :
    (runExecuteQueryAttempt s).2.1 = (runExecuteQueryAttempt s).2.2 := by
  cases s with
  | acqFailed e => rfl
  | acquired q =>
    cases q with
    | ok rows => rfl
    | error e => rfl

theorem execRetryGo_balanced {α : Type} (steps : Nat → ExecStep α) :
    ∀ (budget attempt : Nat),
      (execRetryGo steps attempt budget).2.1 = (execRetryGo steps attempt budget).2.2 := by
  intro budget
  induction budget with
  | zero => intro attempt; exact runExecuteQueryAttempt_balanced (steps attempt)
  | succ budget ih =>
    intro attempt
    cases hs : steps attempt with
    | acqFailed e =>
      simp only [execRetryGo, hs, runExecuteQueryAttempt]
      simp [ih (attempt + 1)]
    | acquired q =>
      cases q with
      | ok rows => simp [execRetryGo, hs, runExecuteQueryAttempt]
      | error e =>
        simp only [execRetryGo, hs, runExecuteQueryAttempt]
        simp [ih (attempt + 1)]

theorem runStreamQuery_balanced {α : Type} (run : ExecStep α) (stop : Option Nat) :
    (runStreamQuery run stop).2.1 = (runStreamQuery run stop).2.2 := by
  cases run with
  | acqFailed e => cases stop <;> rfl
  | acquired q =>
    cases q with
    | ok rows => cases stop <;> rfl
    | error e => cases stop <;> rfl

/-- Claim C1, counterexample to the diagnostics part: two `getConnection`
calls whose only difference is the underlying connect error (connection
refused versus connection reset) reject with the identical fixed
`Error("All PgBouncer instances are unavailable")` value, so the exhaustion
error carries no trace of the last underlying error. -/
theorem C1_counterexample :
    (getConnection (fun _ _ => AttemptResult.connFailed "ECONNREFUSED") 7000
        (mkFailoverPoolManager ["a"] 0)).result = Except.error allUnavailableErr ∧
      (getConnection (fun _ _ => AttemptResult.connFailed "ECONNRESET") 7000
        (mkFailoverPoolManager ["a"] 0)).result = Except.error allUnavailableErr := by
  exact ⟨rfl, rfl⟩

/-- Claim C1 as amended: each `getConnection` call makes exactly one pass
over the configured endpoints — at most `N` physical acquisition attempts,
never spinning — and when no endpoint yields a connection it rejects with
the fixed generic error `"All PgBouncer instances are unavailable"`
(which does not carry the last underlying error). -/
theorem C1_one_pass_fixed_exhaustion_error :
    ∀ (env : Nat → String → AttemptResult) (now : Int) (st : FPState),
      st.currentIndex < st.endpoints.length ∨ st.endpoints = [] →
      (getConnection env now st).attempts ≤ st.endpoints.length ∧
        ((∃ r, (getConnection env now st).result = Except.ok r) ∨
          (getConnection env now st).result = Except.error allUnavailableErr) := by
  intro env now st h
  constructor
  · have := getConnGo_attempts_le env now st.endpoints.length 0 0 st
    simpa [getConnection] using this
  · rcases h with h | h
    · exact getConnGo_result_shape env now st.endpoints.length 0 0 st h
    · right
      show (getConnGo env now 0 st.endpoints.length st 0).result = _
      rw [h]
      rfl

/-- Witness for C1's amended theorem at a concrete input. -/
theorem C1_one_pass_witness :
    (getConnection (fun _ _ => AttemptResult.connected 5) 0
        (mkFailoverPoolManager ["a"] 0)).attempts ≤
        (mkFailoverPoolManager ["a"] 0).endpoints.length ∧
      ((∃ r, (getConnection (fun _ _ => AttemptResult.connected 5) 0
          (mkFailoverPoolManager ["a"] 0)).result = Except.ok r) ∨
        (getConnection (fun _ _ => AttemptResult.connected 5) 0
          (mkFailoverPoolManager ["a"] 0)).result = Except.error allUnavailableErr) :=
  C1_one_pass_fixed_exhaustion_error (fun _ _ => AttemptResult.connected 5) 0
    (mkFailoverPoolManager ["a"] 0) (Or.inl (by decide))

/-- Claim C3, counterexample: a successful acquisition from endpoint `"a"`
(two endpoints configured, cursor at 0) returns with the manager state
completely unchanged — the cursor is still 0 (not advanced past the chosen
endpoint) and neither health map was updated, so the next call starts at
the same endpoint again. -/
theorem C3_counterexample :
    getConnection (fun _ _ => AttemptResult.connected 1) 0
        (mkFailoverPoolManager ["a", "b"] 0) =
      ⟨Except.ok ⟨1, "a"⟩, mkFailoverPoolManager ["a", "b"] 0, 1⟩ := by
  decide

/-- Claim C3 as amended: on success `getConnection` returns immediately
without advancing the cursor (the final cursor still points at the
successful endpoint, so the next call starts there, not past it) and
without touching `lastHealthCheck`; success is reported only to the
endpoint's circuit breaker inside `breaker.execute`. -/
theorem C3_success_leaves_cursor :
    ∀ (env : Nat → String → AttemptResult) (now : Int) (st : FPState) (r : ConnOk),
      (getConnection env now st).result = Except.ok r →
      (getConnection env now st).state.endpoints.get?
          (getConnection env now st).state.currentIndex = some r.key ∧
        (getConnection env now st).state.lastHealthCheck = st.lastHealthCheck := by
  intro env now st r hr
  exact ⟨getConnGo_ok_cursor env now st.endpoints.length 0 0 st r hr,
    (getConnGo_frame env now st.endpoints.length 0 0 st).1⟩

/-- Witness for C3's amended theorem at a concrete input. -/
theorem C3_success_leaves_cursor_witness :
    (getConnection (fun _ _ => AttemptResult.connected 1) 0
        (mkFailoverPoolManager ["a", "b"] 0)).state.endpoints.get?
        (getConnection (fun _ _ => AttemptResult.connected 1) 0
          (mkFailoverPoolManager ["a", "b"] 0)).state.currentIndex =
        some (ConnOk.mk 1 "a").key ∧
      (getConnection (fun _ _ => AttemptResult.connected 1) 0
          (mkFailoverPoolManager ["a", "b"] 0)).state.lastHealthCheck =
        (mkFailoverPoolManager ["a", "b"] 0).lastHealthCheck :=
  C3_success_leaves_cursor (fun _ _ => AttemptResult.connected 1) 0
    (mkFailoverPoolManager ["a", "b"] 0) ⟨1, "a"⟩ (by decide)

/-- Claim C8, counterexample: a failed physical acquisition at time 7000
(endpoint constructed at time 0) sets the health flag to `false` but
leaves `lastHealthCheck` at its old value 0 — the failure observation does
not update the last-checked timestamp. -/
theorem C8_counterexample :
    getConnection (fun _ _ => AttemptResult.connFailed "ECONNREFUSED") 7000
        (mkFailoverPoolManager ["a"] 0) =
      ⟨Except.error allUnavailableErr,
        ⟨["a"], ["a"], 0, [("a", false)], [("a", 0)]⟩, 1⟩ := by
  decide

/-- Claim C8 as amended: a failed background probe sets the endpoint's
health flag to `false` and stamps `lastHealthCheck` with the current time,
but `getConnection` never touches `lastHealthCheck` on any path — a failed
acquisition only sets the health flag. -/
theorem C8_probe_updates_acquisition_does_not :
    ∀ (st : FPState) (probe : String → Bool) (now : Int) (k : String)
      (env : Nat → String → AttemptResult) (now2 : Int),
      k ∈ st.poolKeys → probe k = false →
      mapGet (performHealthChecks probe now st).healthStatus k = some false ∧
        mapGet (performHealthChecks probe now st).lastHealthCheck k = some now ∧
        (getConnection env now2 st).state.lastHealthCheck = st.lastHealthCheck := by
  intro st probe now k env now2 hk hprobe
  refine ⟨?_, ?_, (getConnGo_frame env now2 st.endpoints.length 0 0 st).1⟩
  · have := mapGet_foldl_mem probe st.poolKeys st.healthStatus k hk
    rw [hprobe] at this
    exact this
  · exact mapGet_foldl_mem (fun _ => now) st.poolKeys st.lastHealthCheck k hk

/-- Witness for C8's amended theorem at a concrete input. -/
theorem C8_probe_witness :
    mapGet (performHealthChecks (fun _ => false) 5000
        (mkFailoverPoolManager ["a"] 0)).healthStatus "a" = some false ∧
      mapGet (performHealthChecks (fun _ => false) 5000
          (mkFailoverPoolManager ["a"] 0)).lastHealthCheck "a" = some 5000 ∧
        (getConnection (fun _ _ => AttemptResult.brokenCircuit) 9000
            (mkFailoverPoolManager ["a"] 0)).state.lastHealthCheck =
          (mkFailoverPoolManager ["a"] 0).lastHealthCheck :=
  C8_probe_updates_acquisition_does_not (mkFailoverPoolManager ["a"] 0)
    (fun _ => false) 5000 "a" (fun _ _ => AttemptResult.brokenCircuit) 9000
    (by decide) rfl

/-- Claim C9, counterexample: constructing the pool manager with zero
endpoints succeeds — it is a total function yielding an ordinary (empty)
state, and no `ConfigurationError` is raised anywhere; the failure only
surfaces later, when `getConnection` immediately rejects with the
all-unavailable error. -/
theorem C9_counterexample :
    mkFailoverPoolManager [] 0 = ⟨[], [], 0, [], []⟩ ∧
      (getConnection (fun _ _ => AttemptResult.brokenCircuit) 0
        (mkFailoverPoolManager [] 0)).result = Except.error allUnavailableErr := by
  exact ⟨rfl, rfl⟩

/-- Claim C9 as amended: the constructor performs no validation at all —
every endpoint list (including the empty one) is accepted, and each
configured endpoint starts marked healthy with `lastHealthCheck` stamped
at construction time. -/
theorem C9_constructor_total_no_validation :
    ∀ (endpoints : List String) (now : Int) (k : String), k ∈ endpoints →
      (mkFailoverPoolManager endpoints now).endpoints = endpoints ∧
        mapGet (mkFailoverPoolManager endpoints now).healthStatus k = some true ∧
        mapGet (mkFailoverPoolManager endpoints now).lastHealthCheck k = some now := by
  intro endpoints now k hk
  exact ⟨rfl, mapGet_foldl_mem (fun _ => true) endpoints [] k hk,
    mapGet_foldl_mem (fun _ => now) endpoints [] k hk⟩

/-- Witness for C9's amended theorem at a concrete input. -/
theorem C9_constructor_witness :
    (mkFailoverPoolManager ["a", "b"] 42).endpoints = ["a", "b"] ∧
      mapGet (mkFailoverPoolManager ["a", "b"] 42).healthStatus "b" = some true ∧
      mapGet (mkFailoverPoolManager ["a", "b"] 42).lastHealthCheck "b" = some 42 :=
  C9_constructor_total_no_validation ["a", "b"] 42 "b" (by decide)

/-- Claim C10, counterexample: an unhealthy-but-stale endpoint (flag
`false`, last checked at 0, attempted at 10000) whose attempt is rejected
by an open breaker ends the call with its health flag flipped to `true` —
not left unchanged as claimed — because `getConnection` re-marks the
endpoint healthy just before the attempt, and the `BrokenCircuitError`
branch then mutates nothing. -/
theorem C10_counterexample :
    getConnection (fun _ _ => AttemptResult.brokenCircuit) 10000
        ⟨["a"], ["a"], 0, [("a", false)], [("a", 0)]⟩ =
      ⟨Except.error allUnavailableErr,
        ⟨["a"], ["a"], 0, [("a", true)], [("a", 0)]⟩, 1⟩ := by
  decide

/-- Claim C10 as amended: when every attempt is rejected with
`BrokenCircuitError`, the catch branch performs no failure marking — the
call never sets a health flag to `false` (each flag is left unchanged or,
for a stale unhealthy endpoint, pre-set to `true` before the attempt),
`lastHealthCheck` is untouched, and the call rejects with the
all-unavailable error; only a non-circuit connection failure sets a
health flag to `false`. -/
theorem C10_broken_circuit_no_failure_marking :
    ∀ (env : Nat → String → AttemptResult) (now : Int) (st : FPState) (k : String),
      (∀ j k', env j k' = AttemptResult.brokenCircuit) →
      st.currentIndex < st.endpoints.length →
      (getConnection env now st).state.lastHealthCheck = st.lastHealthCheck ∧
        (mapGet (getConnection env now st).state.healthStatus k =
            mapGet st.healthStatus k ∨
          mapGet (getConnection env now st).state.healthStatus k = some true) ∧
        (getConnection env now st).result = Except.error allUnavailableErr := by
  intro env now st k hbroken hlt
  exact ⟨(getConnGo_frame env now st.endpoints.length 0 0 st).1,
    getConnGo_broken_health env now hbroken st.endpoints.length 0 0 st k,
    getConnGo_broken_result env now hbroken st.endpoints.length 0 0 st hlt⟩

/-- Witness for C10's amended theorem at a concrete input. -/
theorem C10_broken_circuit_witness :
    (getConnection (fun _ _ => AttemptResult.brokenCircuit) 10000
        (⟨["a"], ["a"], 0, [("a", false)], [("a", 0)]⟩ : FPState)).state.lastHealthCheck =
        (⟨["a"], ["a"], 0, [("a", false)], [("a", 0)]⟩ : FPState).lastHealthCheck ∧
      (mapGet (getConnection (fun _ _ => AttemptResult.brokenCircuit) 10000
            (⟨["a"], ["a"], 0, [("a", false)], [("a", 0)]⟩ : FPState)).state.healthStatus "a" =
          mapGet (⟨["a"], ["a"], 0, [("a", false)], [("a", 0)]⟩ : FPState).healthStatus "a" ∨
        mapGet (getConnection (fun _ _ => AttemptResult.brokenCircuit) 10000
            (⟨["a"], ["a"], 0, [("a", false)], [("a", 0)]⟩ : FPState)).state.healthStatus "a" =
          some true) ∧
      (getConnection (fun _ _ => AttemptResult.brokenCircuit) 10000
          (⟨["a"], ["a"], 0, [("a", false)], [("a", 0)]⟩ : FPState)).result =
        Except.error allUnavailableErr :=
  C10_broken_circuit_no_failure_marking (fun _ _ => AttemptResult.brokenCircuit)
    10000 ⟨["a"], ["a"], 0, [("a", false)], [("a", 0)]⟩ "a"
    (fun _ _ => rfl) (by decide)

/-- Claim C4, counterexample: the breaker configured in `client.ts` is the
single opossum breaker with `errorThresholdPercentage: 50`,
`volumeThreshold: 10` and `allowWarmUp: true` — error-rate triggering, not
consecutive-failure triggering.  After 3 consecutive failures (the
configured consecutive threshold elsewhere in the repository) it stays
closed, it even stays closed after 9 consecutive failures (volume below
the floor of 10) and after 20 consecutive failures inside the warm-up
window, yet it opens on 6 failures interleaved with 4 successes (60
percent error rate at volume 10, a pattern whose longest consecutive
failure run can be as short as 2). -/
theorem C4_counterexample :
    opossumShouldOpen true consecutiveFailuresThreshold 0 = false ∧
      opossumShouldOpen true 9 0 = false ∧
      opossumShouldOpen false 20 0 = false ∧
      opossumShouldOpen true 6 4 = true := by
  decide

/-- Claim C4 as amended: the per-endpoint cockatiel `ConsecutiveBreaker`
breakers of the failover pool manager transition from Closed to Open
exactly when the consecutive-failure count reaches the configured
threshold (3), and any success while Closed resets the count to 0; the
`ResilientDatabaseClient` variant in `client.ts` instead uses one shared
opossum breaker with error-rate triggering. -/
theorem C4_consecutive_breaker_transitions :
    ∀ (n : Nat) (now : Int),
      (cbOnFailure consecutiveFailuresThreshold (CBState.closed n) now =
          CBState.opened now ↔ consecutiveFailuresThreshold ≤ n + 1) ∧
        cbOnSuccess (CBState.closed n) = CBState.closed 0 := by
  intro n now
  constructor
  · simp only [cbOnFailure]
    by_cases h : consecutiveFailuresThreshold ≤ n + 1
    · rw [if_pos h]
      exact ⟨fun _ => h, fun _ => rfl⟩
    · rw [if_neg h]
      exact ⟨fun heq => absurd heq (by simp), fun hle => absurd hle h⟩
  · rfl

/-- Claim C5: `shouldRetryEndpoint` returns `true` exactly when the
endpoint's health flag is `true` or the time elapsed since its recorded
`lastHealthCheck` strictly exceeds the retry-after grace period; in
particular a stale unhealthy endpoint becomes eligible again without any
successful check. -/
theorem C5_shouldRetryEndpoint_iff :
    ∀ (st : FPState) (now : Int) (key : String) (t : Int),
      mapGet st.lastHealthCheck key = some t →
      (shouldRetryEndpoint st now key = true ↔
        (mapGet st.healthStatus key = some true ∨ now - t > retryAfterMs)) := by
  intro st now key t ht
  unfold shouldRetryEndpoint
  cases hh : mapGet st.healthStatus key with
  | none => simp [ht]
  | some b =>
    cases b with
    | true => simp
    | false => simp [ht]

/-- Witness for C5 at a concrete input: a stale unhealthy endpoint (flag
`false`, last checked at 0, queried at 7000 with a 6000ms grace) is
eligible. -/
theorem C5_shouldRetryEndpoint_witness :
    shouldRetryEndpoint ⟨["a"], ["a"], 0, [("a", false)], [("a", 0)]⟩ 7000 "a" = true ↔
      (mapGet (FPState.mk ["a"] ["a"] 0 [("a", false)] [("a", 0)]).healthStatus "a" =
          some true ∨ (7000 : Int) - 0 > retryAfterMs) :=
  C5_shouldRetryEndpoint_iff ⟨["a"], ["a"], 0, [("a", false)], [("a", 0)]⟩ 7000 "a" 0 rfl

/-- Claim C2, counterexample: a statement-level error (unique-constraint
violation, code 23505, duration 1ms) thrown inside `policy.execute` is
handled by the `handleAll` retry and breaker layers like any other error:
the statement is executed twice, the second failure opens the driver-level
`ConsecutiveBreaker(2)`, the remaining two calls are rejected by the open
breaker without running the statement, three backoff waits occur (100ms
each here), and the error that finally surfaces is `BrokenCircuitError` —
not the statement error surfaced immediately and untouched. -/
theorem C2_counterexample :
    driverPolicyExec
        (fun _ => (⟨1, Except.error (QError.statement "23505")⟩ : QueryOp Unit))
        (fun _ => 100) 0 =
      ⟨Except.error QError.brokenCircuit, 2, 3, CBState.opened 100⟩ := by
  decide

/-- Claim C2 as amended: the driver policy layers in `resilient-driver.ts`
are all built with `handleAll`, so statement-level errors are not
special-cased: an always-failing statement error consumes the whole retry
budget with a backoff wait before each retry and counts toward the
driver-level `ConsecutiveBreaker(2)` exactly like a connection error — the
statement runs twice, the breaker opens after the second failure, the last
two calls are short-circuited with `BrokenCircuitError`, and that
`BrokenCircuitError` (not the statement error) is what finally surfaces to
the caller; only the per-endpoint acquisition breakers inside
`getConnection`, which never see statement execution, are unaffected.
(The delay hypotheses hold for the configured `ExponentialBackoff` whose
delays are capped at 5000ms, far below the 30000ms `halfOpenAfter`.) -/
theorem C2_statement_error_opens_driver_breaker :
    ∀ (code : String) (delay : Nat → Int) (start : Int),
      delay 1 < driverHalfOpenAfter →
      delay 1 + delay 2 < driverHalfOpenAfter →
      driverPolicyExec
          (fun _ => (⟨1, Except.error (QError.statement code)⟩ : QueryOp Unit))
          delay start =
        ⟨Except.error QError.brokenCircuit, 2, 3, CBState.opened (start + delay 0)⟩ := by
  intro code delay start h1 h2
  have g1 : ¬(driverHalfOpenAfter ≤ start + delay 0 + delay 1 - (start + delay 0)) := by
    omega
  have g2 : ¬(driverHalfOpenAfter ≤
      start + delay 0 + delay 1 + delay 2 - (start + delay 0)) := by
    omega
  have g3 : ¬(driverHalfOpenAfter ≤ delay 1) := by omega
  have g4 : ¬(driverHalfOpenAfter ≤ delay 1 + delay 2) := by omega
  simp [driverPolicyExec, wrapExecGo, breakerStep, timeoutLayer, cbOnFailure,
    cbOnSuccess, driverBreakerThreshold, driverTimeoutMs, g1, g2, g3, g4]

/-- Witness for C2's amended theorem at a concrete input. -/
theorem C2_statement_error_witness :
    driverPolicyExec
        (fun _ => (⟨1, Except.error (QError.statement "42501")⟩ : QueryOp Unit))
        (fun _ => 200) 1000 =
      ⟨Except.error QError.brokenCircuit, 2, 3,
        CBState.opened ((1000 : Int) + 200)⟩ :=
  C2_statement_error_opens_driver_breaker "42501" (fun _ => 200) 1000
    (by decide) (by decide)

/-- Claim C6, counterexample: `streamQuery` does not behave identically to
`executeQuery`.  A query taking 20000ms with the 10000ms execution timeout
fails through `TimeoutConnection.executeQuery` but succeeds through
`TimeoutConnection.streamQuery` (no timeout policy); and an operation that
fails once then succeeds is retried to success by
`ResilientConnection.executeQuery` (inside `policy.execute`) but fails
through `ResilientConnection.streamQuery` (single attempt, no policy). -/
theorem C6_counterexample :
    timeoutExecuteQuery 10000 (⟨20000, Except.ok [1]⟩ : QueryOp (List Nat)) =
        Except.error QError.timedOut ∧
      timeoutStreamQuery (⟨20000, Except.ok [1]⟩ : QueryOp (List Nat)) =
        Except.ok [1] ∧
      resilientExecuteQuery
          (fun n => if n = 0 then (Except.error (QError.connection "08006") :
            Except QError (List Nat)) else Except.ok [7]) =
        (Except.ok [7], 2, 1) ∧
      resilientStreamQuery
          (fun n => if n = 0 then (Except.error (QError.connection "08006") :
            Except QError (List Nat)) else Except.ok [7]) =
        (Except.error (QError.connection "08006"), 1, 0) := by
  decide

/-- Claim C6 as amended: `streamQuery` yields rows lazily with the same
guaranteed-release discipline, but unlike `executeQuery` it runs under
neither the execution timeout (`TimeoutConnection.streamQuery` delegates
directly, returning the underlying outcome whatever its duration) nor the
retry/circuit-breaker policy (`ResilientConnection.streamQuery` performs
exactly one unwrapped attempt), whereas `executeQuery` rejects any
operation that outlasts the execution timeout. -/
theorem C6_streamQuery_bypasses_policies :
    ∀ (α : Type) (op : QueryOp α) (f : Nat → Except QError α) (t : Nat),
      timeoutStreamQuery op = op.result ∧
        resilientStreamQuery f = (f 0, 1, 0) ∧
        (t < op.duration → timeoutExecuteQuery t op = Except.error QError.timedOut) := by
  intro α op f t
  refine ⟨rfl, rfl, fun h => ?_⟩
  simp [timeoutExecuteQuery, h]

/-- Witness for C6's amended theorem at a concrete input. -/
theorem C6_streamQuery_witness :
    timeoutStreamQuery (⟨20000, Except.ok [1]⟩ : QueryOp (List Nat)) =
        (⟨20000, Except.ok [1]⟩ : QueryOp (List Nat)).result ∧
      resilientStreamQuery (fun _ => (Except.ok [1] : Except QError (List Nat))) =
        ((fun _ => (Except.ok [1] : Except QError (List Nat))) 0, 1, 0) ∧
      (10000 < (⟨20000, Except.ok [1]⟩ : QueryOp (List Nat)).duration →
        timeoutExecuteQuery 10000 (⟨20000, Except.ok [1]⟩ : QueryOp (List Nat)) =
          Except.error QError.timedOut) :=
  C6_streamQuery_bypasses_policies (List Nat) ⟨20000, Except.ok [1]⟩
    (fun _ => Except.ok [1]) 10000

/-- Claim C7: on every execution path of `executeQuery` (across all retry
attempts) and of `streamQuery` (normal exhaustion, query error, or early
abandonment by the consumer after any number of rows), the number of
clients released equals the number of clients acquired — every
successfully acquired client is released. -/
theorem C7_release_on_every_path :
    ∀ (α : Type) (steps : Nat → ExecStep α) (run : ExecStep α) (stop : Option Nat),
      (resilientExecuteQueryRun steps).2.1 = (resilientExecuteQueryRun steps).2.2 ∧
        (runStreamQuery run stop).2.1 = (runStreamQuery run stop).2.2 := by
  intro α steps run stop
  exact ⟨execRetryGo_balanced steps 3 0, runStreamQuery_balanced run stop⟩
